import Mathlib

/-!
Verification of the xeus-lean session bridge (`src/lean_repl.cpp`,
`src/xeus_ffi.cpp`) against its natural-language specification.

The C++ code is shallowly embedded: the embedded Lean engine (reached through
`LeanRepl::send_command`, i.e. the FFI call plus the JSON parse of its reply)
is modelled as an abstract function `JVal → Except String JVal`; an `.error`
result stands for a thrown C++ exception (engine invocation failure or JSON
decode failure), an `.ok` result for a successfully parsed response document.
The mutable member `m_current_env` is threaded explicitly as an
`Option Int` state.
-/

namespace XeusLean

/-- Model of an nlohmann::json value as used by the bridge. Objects are
association lists looked up by first match. -/
inductive JVal where
  | null
  | bool (b : Bool)
  | num (n : Int)
  | str (s : String)
  | arr (elems : List JVal)
  | obj (fields : List (String × JVal))

/-- First-match lookup in a JSON object's field list (nlohmann objects have
unique keys, so first-match agrees with map lookup). -/
def lookupField : List (String × JVal) → String → Option JVal
  | [], _ => none
  | (k, v) :: rest, key => if k = key then some v else lookupField rest key

/-- Model of `j.find(key)` / field access on a JSON value: `some` iff `j` is an
object containing the key. -/
def JVal.find : JVal → String → Option JVal
  | .obj fields, key => lookupField fields key
  | _, _ => none

/-- Model of `json::contains`. -/
def JVal.contains (j : JVal) (key : String) : Bool :=
  (j.find key).isSome

/-- Model of `operator[]` on a const json object; only used under a
`contains` guard in the source, where the default is irrelevant. -/
def JVal.getField (j : JVal) (key : String) : JVal :=
  (j.find key).getD .null

/-- Model of `get<std::string>()`: returns the string, or throws a
type error (modelled as `.error`). -/
def JVal.asStr : JVal → Except String String
  | .str s => .ok s
  | _ => .error "type must be string"

/-- Model of `get<int>()`: returns the number, or throws a type error. -/
def JVal.asInt : JVal → Except String Int
  | .num n => .ok n
  | _ => .error "type must be number"

/-- Model of `repl_result` (lean_repl.hpp lines 21-27). -/
structure repl_result where
  ok : Bool
  output : String
  error : String
  response : JVal
  env : Option Int

/-- The value returned by `LeanRepl::execute`'s catch-all handler
(lean_repl.cpp lines 185-188): any exception from `send_command` or from the
JSON accessors is converted to an `Err` result wrapping the description. -/
def commFailure (e : String) : repl_result :=
  { ok := false, output := "", error := "Error communicating with Lean REPL: " ++ e,
    response := .null, env := none }

/-- The messages loop of `LeanRepl::execute` (lean_repl.cpp lines 167-173):
for each message carrying a `data` field, append its text and a newline; a
non-string `data` throws. -/
def msgsOutput : List JVal → Except String String
  | [] => .ok ""
  | m :: rest =>
    match m.find "data" with
    | none => msgsOutput rest
    | some v =>
      match v.asStr with
      | .error e => .error e
      | .ok s =>
        match msgsOutput rest with
        | .error e => .error e
        | .ok r => .ok (s ++ "\n" ++ r)

/-- The sorries loop of `LeanRepl::execute` (lean_repl.cpp lines 175-181):
for each entry carrying a `goal` field, append "Goal: ", its text and a
newline. -/
def sorriesOutput : List JVal → Except String String
  | [] => .ok ""
  | x :: rest =>
    match x.find "goal" with
    | none => sorriesOutput rest
    | some v =>
      match v.asStr with
      | .error e => .error e
      | .ok s =>
        match sorriesOutput rest with
        | .error e => .error e
        | .ok r => .ok ("Goal: " ++ s ++ "\n" ++ r)

/-- Request construction of `LeanRepl::execute` (lean_repl.cpp lines 142-148):
`cmd` field always, `env` field from the explicit argument if present, else
from the session's current environment if set, else absent. -/
def buildCmd (code : String) (env_id : Option Int) (current : Option Int) : JVal :=
  JVal.obj (("cmd", JVal.str code) ::
    (match env_id with
     | some e => [("env", JVal.num e)]
     | none =>
       match current with
       | some e => [("env", JVal.num e)]
       | none => []))

/-- Model of `LeanRepl::execute` (lean_repl.cpp lines 140-189). The abstract
`engine` stands for `send_command`; the returned pair is
(repl_result, new value of m_current_env). The sequencing of the source is
kept: `m_current_env` is assigned as soon as the `env` field is read, so a
later exception in the messages or sorries loop (caught by the catch-all)
leaves the already-updated environment in place. -/
def execute (engine : JVal → Except String JVal) (current : Option Int)
    (code : String) (env_id : Option Int) : repl_result × Option Int :=
  match engine (buildCmd code env_id current) with
  | .error e => (commFailure e, current)
  | .ok response =>
    if response.contains "error" then
      match (response.getField "error").asStr with
      | .error e => (commFailure e, current)
      | .ok msg =>
        ({ ok := false, output := "", error := msg, response := response, env := none },
         current)
    else
      match (if response.contains "env" then
               match (response.getField "env").asInt with
               | .error e => Except.error e
               | .ok n => Except.ok (some n)
             else Except.ok none) with
      | .error e => (commFailure e, current)
      | .ok newEnv =>
        let current1 := match newEnv with
          | some n => some n
          | none => current
        match (match response.find "messages" with
               | some (JVal.arr l) => msgsOutput l
               | _ => Except.ok "") with
        | .error e => (commFailure e, current1)
        | .ok msgsStr =>
          match (match response.find "sorries" with
                 | some (JVal.arr l) => sorriesOutput l
                 | _ => Except.ok "") with
          | .error e => (commFailure e, current1)
          | .ok sorrStr =>
            ({ ok := true, output := msgsStr ++ sorrStr, error := "",
               response := response, env := newEnv }, current1)

/-! Lexical analyzer: identifier extraction (lean_repl.cpp lines 191-215). -/

/-- Character classification of `LeanRepl::extract_identifier` (lean_repl.cpp
lines 193-196): alphanumeric (C locale `isalnum`, i.e. ASCII), underscore,
prime/apostrophe, or dot. -/
def is_ident_char (c : Char) : Bool :=
  c.isAlphanum || c = '_' || c = Char.ofNat 39 || c = '.'

/-- Cursor clamping of `extract_identifier` (lean_repl.cpp lines 199-200):
`max(0, min(cursor_pos, code.size()))`. -/
def clampCursor (code : List Char) (cursor_pos : Int) : Nat :=
  (max 0 (min cursor_pos (Int.ofNat code.length))).toNat

/-- The left scan of `extract_identifier` (lean_repl.cpp lines 202-205):
`while (s > 0 && is_ident_char(code[s-1])) --s`. -/
def scanLeft (code : List Char) : Nat → Nat
  | 0 => 0
  | s + 1 => if is_ident_char (code.getD s ' ') then scanLeft code s else s + 1

/-- The right scan of `extract_identifier` (lean_repl.cpp lines 207-210):
`while (e < code.size() && is_ident_char(code[e])) ++e`, embedded with an
explicit fuel of `code.length - e` (the loop advances `e` by one per
iteration, so this fuel never runs out before the loop condition fails). -/
def scanRightAux (code : List Char) : Nat → Nat → Nat
  | 0, e => e
  | fuel + 1, e =>
    if e < code.length ∧ is_ident_char (code.getD e ' ') then
      scanRightAux code fuel (e + 1)
    else e

/-- The right scan of `extract_identifier`, starting from position `e`. -/
def scanRight (code : List Char) (e : Nat) : Nat :=
  scanRightAux code (code.length - e) e

/-- Model of `IdentifierSpan`: the substring together with the out-parameters
`start` and `end` of `extract_identifier` (`end` is a Lean keyword, hence
`stop`). -/
structure identifier_span where
  text : String
  start : Nat
  stop : Nat

/-- Model of `LeanRepl::extract_identifier` (lean_repl.cpp lines 191-215). -/
def extract_identifier (code : List Char) (cursor_pos : Int) : identifier_span :=
  let cursor := clampCursor code cursor_pos
  let s := scanLeft code cursor
  let e := scanRight code cursor
  { text := String.mk ((code.drop s).take (e - s)), start := s, stop := e }

/-! Completion (lean_repl.cpp lines 217-244). -/

/-- The static candidate vocabulary of `LeanRepl::complete` (lean_repl.cpp
lines 223-234), in source order. -/
def keywords : List String :=
  ["def", "theorem", "lemma", "example", "axiom", "inductive",
   "structure", "class", "instance", "namespace", "section",
   "variable", "variables", "constant", "import", "open",
   "by", "have", "show", "from", "let", "in",
   "match", "with", "do", "if", "then", "else",
   "fun", "λ", "forall", "∀", "exists", "∃",
   "Nat", "Int", "String", "Bool", "List", "Array", "Option",
   "Nat.add", "Nat.mul", "List.map", "List.filter",
   "simp", "rfl", "intro", "apply", "exact", "cases", "induction",
   "rw", "rewrite", "unfold", "split", "contradiction"]

/-- Model of `completion_result` (lean_repl.hpp lines 29-33); `matches` is a
reserved word in Lean, hence `matches_`. -/
structure completion_result where
  matches_ : List String
  cursor_start : Nat
  cursor_end : Nat

/-- Model of `kw.rfind(prefix, 0) == 0`: the first list is a prefix of the
second. -/
def strPre : List Char → List Char → Bool
  | [], _ => true
  | _ :: _, [] => false
  | a :: as, b :: bs => a == b && strPre as bs

/-- Model of `LeanRepl::complete` (lean_repl.cpp lines 217-244): filter the
static vocabulary by prefix match against the extracted identifier, keeping
source order, and return the extraction bounds. -/
def complete (code : List Char) (cursor_pos : Int) : completion_result :=
  let r := extract_identifier code cursor_pos
  { matches_ := keywords.filter (fun kw => strPre r.text.toList kw.toList),
    cursor_start := r.start,
    cursor_end := r.stop }

/-! Inspection (lean_repl.cpp lines 246-277). -/

/-- Model of `LeanRepl::inspect` (lean_repl.cpp lines 246-277). Empty
identifier: return "" without consulting the engine (the result does not
depend on `engine` at all). Otherwise send `#check <ident>` with the current
environment when set (same request shape as `execute` with no override);
engine failure is swallowed to "", a first message with a string `data` field
is returned verbatim, and otherwise the "No information available" sentinel
is returned. -/
def inspect (engine : JVal → Except String JVal) (current : Option Int)
    (code : List Char) (cursor_pos : Int) : String :=
  let ident := (extract_identifier code cursor_pos).text
  if ident = "" then ""
  else
    match engine (buildCmd ("#check " ++ ident) none current) with
    | .error _ => ""
    | .ok response =>
      match response.find "messages" with
      | some (JVal.arr (m :: _)) =>
        match m.find "data" with
        | some v =>
          match v.asStr with
          | .ok s => s
          | .error _ => ""
        | none => "No information available for: " ++ ident
      | _ => "No information available for: " ++ ident

/-! Completeness classification (lean_repl.cpp lines 279-340). -/

/-- The double-quote character. -/
def quoteChar : Char := Char.ofNat 34

/-- The backslash character. -/
def backslashChar : Char := Char.ofNat 92

/-- The opening-brace character. -/
def lbraceChar : Char := Char.ofNat 123

/-- The closing-brace character. -/
def rbraceChar : Char := Char.ofNat 125

/-- C locale `isspace`: space, tab, newline, vertical tab, form feed,
carriage return. -/
def cIsSpace (c : Char) : Bool :=
  c == ' ' || c == '\t' || c == '\n' || c == Char.ofNat 11 || c == Char.ofNat 12 || c == '\r'

/-- The trailing-whitespace trim of `LeanRepl::is_complete` (lean_repl.cpp
lines 281-284): `while (!trimmed.empty() && isspace(trimmed.back())) pop_back()`. -/
def trimTrailing (code : List Char) : List Char :=
  (code.reverse.dropWhile cIsSpace).reverse

/-- The scanner state of `LeanRepl::is_complete` (lean_repl.cpp lines
291-293): three signed depth counters and the string/comment booleans. -/
structure scan_state where
  open_parens : Int
  open_braces : Int
  open_brackets : Int
  in_string : Bool
  in_comment : Bool
deriving DecidableEq

/-- Initial scanner state. -/
def init_scan : scan_state := ⟨0, 0, 0, false, false⟩

/-- One iteration of the scanning loop of `is_complete` (lean_repl.cpp lines
295-326), at index `i` of the trimmed text `t`. The branch order of the
source is kept exactly: the string-mode branch first, then the
quote-enters-string branch, then the `--` lookahead, then the comment-mode
branch, then the six bracket branches. -/
def scanStep (t : List Char) (i : Nat) (st : scan_state) : scan_state :=
  let c := t.getD i ' '
  if st.in_string then
    if c = quoteChar ∧ (i = 0 ∨ t.getD (i - 1) ' ' ≠ backslashChar) then
      { st with in_string := false }
    else st
  else if c = quoteChar then
    { st with in_string := true }
  else if i + 1 < t.length ∧ c = '-' ∧ t.getD (i + 1) ' ' = '-' then
    { st with in_comment := true }
  else if st.in_comment then
    if c = '\n' then { st with in_comment := false } else st
  else if c = '(' then { st with open_parens := st.open_parens + 1 }
  else if c = ')' then { st with open_parens := st.open_parens - 1 }
  else if c = lbraceChar then { st with open_braces := st.open_braces + 1 }
  else if c = rbraceChar then { st with open_braces := st.open_braces - 1 }
  else if c = '[' then { st with open_brackets := st.open_brackets + 1 }
  else if c = ']' then { st with open_brackets := st.open_brackets - 1 }
  else st

/-- The whole scanning loop of `is_complete` over the trimmed text. -/
def scanAll (t : List Char) : scan_state :=
  (List.range t.length).foldl (fun st i => scanStep t i st) init_scan

/-- Model of `trimmed.find("by") != npos` (lean_repl.cpp line 334): the
two-character sequence `by` occurs somewhere in the text (a plain substring
search, not a token search). -/
def hasBy : List Char → Bool
  | 'b' :: 'y' :: _ => true
  | _ :: rest => hasBy rest
  | [] => false

/-- Model of `LeanRepl::is_complete` (lean_repl.cpp lines 279-340). -/
def is_complete (code : List Char) : String :=
  let trimmed := trimTrailing code
  if trimmed.isEmpty then "incomplete"
  else
    let st := scanAll trimmed
    if st.open_parens > 0 ∨ st.open_braces > 0 ∨ st.open_brackets > 0 ∨ st.in_string = true then
      "incomplete"
    else if hasBy trimmed ∧ trimmed.getLastD ' ' ≠ '.' ∧ trimmed.getLastD ' ' ≠ ')' then
      "incomplete"
    else "complete"

/-! Worker-thread polling deployment (xeus_ffi.cpp). The `lean_interpreter`
objects's mutable members are modelled as an explicit state record; the reply
callback slot is modelled by an opaque identifier. -/

/-- The state of the C++ `lean_interpreter` (xeus_ffi.cpp lines 179-184). -/
structure lean_interpreter_st where
  m_message_queue : List String
  m_should_stop : Bool
  m_current_callback : Option Nat

/-- The constructed interpreter state (xeus_ffi.cpp line 43): empty queue,
flag false, no callback. -/
def interp_init : lean_interpreter_st := ⟨[], false, none⟩

/-- The operations that touch the interpreter state: `execute_request_impl`
(enqueue a dumped message and store the reply callback), `poll_message`
(dequeue), `send_result` / `send_error` (clear the callback slot), and
`shutdown_request_impl` (set the should-stop flag). -/
inductive interp_op where
  | execute_request (msg : String) (cb : Nat)
  | poll_op
  | send_result
  | send_error
  | shutdown_request

/-- Model of `lean_interpreter::poll_message` (xeus_ffi.cpp lines 109-125):
return "" on an empty queue, else pop and return the front message. -/
def poll_message (st : lean_interpreter_st) : String × lean_interpreter_st :=
  match st.m_message_queue with
  | [] => ("", st)
  | m :: rest => (m, { st with m_message_queue := rest })

/-- State transition of each interpreter operation (xeus_ffi.cpp lines 52-71,
103-106, 109-125, 127-173). Message publication and callback invocation have
no effect on the state members and are not modelled. -/
def interp_step (op : interp_op) (st : lean_interpreter_st) : lean_interpreter_st :=
  match op with
  | .execute_request msg cb =>
    { st with m_message_queue := st.m_message_queue ++ [msg],
              m_current_callback := some cb }
  | .poll_op => (poll_message st).2
  | .send_result => { st with m_current_callback := none }
  | .send_error => { st with m_current_callback := none }
  | .shutdown_request => { st with m_should_stop := true }

/-- Model of `lean_interpreter::should_stop` (xeus_ffi.cpp lines 175-177). -/
def should_stop (st : lean_interpreter_st) : Bool := st.m_should_stop

/-- Model of `xeus_kernel_poll` (xeus_ffi.cpp lines 317-344): poll the queue,
and when the polled message is empty, sleep for `timeout_ms` milliseconds
before returning. The third component records the number of milliseconds
passed to `sleep_for` (0 when no sleep happens). -/
def xeus_kernel_poll (st : lean_interpreter_st) (timeout_ms : Nat) :
    String × lean_interpreter_st × Nat :=
  let r := poll_message st
  if r.1 = "" then (r.1, r.2, timeout_ms) else (r.1, r.2, 0)

/-! Builders for well-formed response documents (wire format of spec section 6:
`{ env?: int, messages?: [{severity, data}], sorries?: [{goal}] }`), and the
output-concatenation spec used to state claim C3. -/

/-- Left-to-right concatenation of a list of strings. -/
def concatAll : List String → String
  | [] => ""
  | s :: rest => s ++ concatAll rest

/-- A well-formed diagnostic message entry of the wire format. -/
def mkMessage (severity text : String) : JVal :=
  JVal.obj [("severity", JVal.str severity), ("data", JVal.str text)]

/-- A well-formed open sub-goal entry of the wire format. -/
def mkSorryEntry (goal : String) : JVal :=
  JVal.obj [("goal", JVal.str goal)]

/-- The response document of the spec scenario for `execute("#eval 1 + 1")`:
`{"env":1,"messages":[{"severity":"info","data":"2"}]}`. -/
def scenarioResp : JVal :=
  JVal.obj [("env", JVal.num 1),
            ("messages", JVal.arr [JVal.obj [("severity", JVal.str "info"),
                                             ("data", JVal.str "2")]])]

/-! Helper lemmas about the identifier scanner. -/

/-- The number of leading identifier-constituent characters of a list; the
right scan from `e` lands at `e` plus this count of the dropped suffix. -/
def leadCount : List Char → Nat
  | [] => 0
  | c :: rest => if is_ident_char c then leadCount rest + 1 else 0

theorem scanLeft_le (code : List Char) (c : Nat) : scanLeft code c ≤ c := by
  induction c with
  | zero => simp [scanLeft]
  | succ s ih =>
    simp only [scanLeft]
    split
    · exact Nat.le_trans ih (Nat.le_succ s)
    · exact Nat.le_refl _

theorem scanLeft_const (code : List Char) (c : Nat) :
    ∀ i, scanLeft code c ≤ i → i < c → is_ident_char (code.getD i ' ') = true := by
  induction c with
  | zero => intro i _ h2; omega
  | succ s ih =>
    intro i h1 h2
    simp only [scanLeft] at h1
    split at h1
    next hc =>
      rcases Nat.lt_succ_iff_lt_or_eq.mp h2 with h | h
      · exact ih i h1 h
      · subst h; exact hc
    next hc => omega

theorem scanLeft_bound (code : List Char) (c : Nat) :
    0 < scanLeft code c → is_ident_char (code.getD (scanLeft code c - 1) ' ') = false := by
  induction c with
  | zero => intro h; simp [scanLeft] at h
  | succ s ih =>
    simp only [scanLeft]
    split
    next hc => exact ih
    next hc => intro _; simpa using hc

theorem scanLeft_stop (code : List Char) (c : Nat)
    (h : c = 0 ∨ is_ident_char (code.getD (c - 1) ' ') = false) :
    scanLeft code c = c := by
  match c, h with
  | 0, _ => rfl
  | s + 1, h =>
    rcases h with h | h
    · omega
    · simp only [Nat.add_sub_cancel] at h
      simp only [scanLeft]
      rw [if_neg (by rw [h]; simp)]

theorem leadCount_le_length (l : List Char) : leadCount l ≤ l.length := by
  induction l with
  | nil => simp [leadCount]
  | cons c rest ih =>
    simp only [leadCount, List.length_cons]
    split
    · omega
    · omega

theorem leadCount_const (l : List Char) :
    ∀ j, j < leadCount l → is_ident_char (l.getD j ' ') = true := by
  induction l with
  | nil => intro j h; simp [leadCount] at h
  | cons c rest ih =>
    intro j h
    simp only [leadCount] at h
    split at h
    next hc =>
      match j with
      | 0 => simpa using hc
      | j + 1 =>
        have : j < leadCount rest := by omega
        simpa using ih j this
    next hc => omega

theorem leadCount_bound (l : List Char) (h : leadCount l < l.length) :
    is_ident_char (l.getD (leadCount l) ' ') = false := by
  induction l with
  | nil => simp at h
  | cons c rest ih =>
    by_cases hc : is_ident_char c = true
    · have hlt : leadCount rest < rest.length := by
        simp only [leadCount, List.length_cons, if_pos hc] at h
        omega
      simp only [leadCount, if_pos hc, List.getD_cons_succ]
      exact ih hlt
    · simp only [leadCount, if_neg hc, List.getD_cons_zero]
      simpa using hc

theorem getD_drop (l : List Char) (i j : Nat) (d : Char) :
    (l.drop i).getD j d = l.getD (i + j) d := by
  simp [List.getD_eq_getElem?_getD, List.getElem?_drop]

theorem scanRightAux_eq (code : List Char) :
    ∀ fuel e, code.length ≤ e + fuel →
      scanRightAux code fuel e = e + leadCount (code.drop e) := by
  intro fuel
  induction fuel with
  | zero =>
    intro e h
    simp only [Nat.add_zero] at h
    simp [scanRightAux, List.drop_eq_nil_of_le h, leadCount]
  | succ f ih =>
    intro e h
    simp only [scanRightAux]
    split
    next hc =>
      rw [ih (e + 1) (by omega)]
      rw [List.drop_eq_getElem_cons hc.1]
      simp only [leadCount]
      rw [List.getD_eq_getElem code ' ' hc.1] at hc
      rw [if_pos hc.2]
      omega
    next hc =>
      by_cases hlen : e < code.length
      · have hni : is_ident_char (code.getD e ' ') = false := by
          by_contra hx
          exact hc ⟨hlen, by simpa using hx⟩
        rw [List.drop_eq_getElem_cons hlen]
        simp only [leadCount]
        rw [List.getD_eq_getElem code ' ' hlen] at hni
        rw [if_neg (by simp [hni])]
        omega
      · rw [List.drop_eq_nil_of_le (by omega)]
        simp [leadCount]

theorem scanRight_eq (code : List Char) (e : Nat) :
    scanRight code e = e + leadCount (code.drop e) :=
  scanRightAux_eq code (code.length - e) e (by omega)

theorem scanRight_ge (code : List Char) (e : Nat) : e ≤ scanRight code e := by
  rw [scanRight_eq]; omega

theorem scanRight_le_length (code : List Char) (e : Nat) (h : e ≤ code.length) :
    scanRight code e ≤ code.length := by
  rw [scanRight_eq]
  have h1 := leadCount_le_length (code.drop e)
  rw [List.length_drop] at h1
  omega

theorem scanRight_const (code : List Char) (e : Nat) :
    ∀ i, e ≤ i → i < scanRight code e → is_ident_char (code.getD i ' ') = true := by
  intro i h1 h2
  rw [scanRight_eq] at h2
  have hj : i - e < leadCount (code.drop e) := by omega
  have := leadCount_const (code.drop e) (i - e) hj
  rw [getD_drop] at this
  have he : e + (i - e) = i := by omega
  rwa [he] at this

theorem scanRight_bound (code : List Char) (e : Nat)
    (h : scanRight code e < code.length) :
    is_ident_char (code.getD (scanRight code e) ' ') = false := by
  rw [scanRight_eq] at h ⊢
  have hlc : leadCount (code.drop e) < (code.drop e).length := by
    rw [List.length_drop]
    omega
  have := leadCount_bound (code.drop e) hlc
  rwa [getD_drop] at this

theorem scanRight_stop (code : List Char) (e : Nat)
    (h : e = code.length ∨ is_ident_char (code.getD e ' ') = false) :
    scanRight code e = e := by
  rw [scanRight_eq]
  rcases h with h | h
  · rw [List.drop_eq_nil_of_le (by omega)]; simp [leadCount]
  · by_cases hlen : e < code.length
    · rw [List.drop_eq_getElem_cons hlen]
      simp only [leadCount]
      rw [List.getD_eq_getElem code ' ' hlen] at h
      rw [if_neg (by simp [h])]
      omega
    · rw [List.drop_eq_nil_of_le (by omega)]; simp [leadCount]

theorem clampCursor_le_length (code : List Char) (p : Int) :
    clampCursor code p ≤ code.length := by
  simp only [clampCursor, Int.ofNat_eq_coe]
  omega

/-! Helper lemmas about the execution bridge. -/

theorem msgsOutput_mk (ms : List (String × String)) :
    msgsOutput (ms.map (fun p => mkMessage p.1 p.2)) =
      Except.ok (concatAll (ms.map (fun p => p.2 ++ "\n"))) := by
  induction ms with
  | nil => simp [msgsOutput, concatAll]
  | cons p rest ih =>
    simp only [mkMessage] at ih
    simp [msgsOutput, mkMessage, JVal.find, lookupField, JVal.asStr, ih, concatAll,
          String.append_assoc]

theorem sorriesOutput_mk (gs : List String) :
    sorriesOutput (gs.map mkSorryEntry) =
      Except.ok (concatAll (gs.map (fun g => "Goal: " ++ g ++ "\n"))) := by
  induction gs with
  | nil => simp [sorriesOutput, concatAll]
  | cons g rest ih =>
    simp only [mkSorryEntry] at ih
    simp [sorriesOutput, mkSorryEntry, JVal.find, lookupField, JVal.asStr, ih, concatAll,
          String.append_assoc]

/-- C1: for every code string and optional environment override, `execute`
returns a result and never propagates a fault: an engine/decode failure (the
abstract engine returning `.error`) yields the `Err` result wrapping the
failure description produced by the catch-all handler, and a response
document containing an `error` field yields `Err` with `m_current_env` left
unchanged. Totality is by construction: `execute` is a total Lean function. -/
theorem execute_total_err_on_failure
    (engine : JVal → Except String JVal) (current : Option Int)
    (code : String) (env_id : Option Int) :
    (∀ e, engine (buildCmd code env_id current) = .error e →
      execute engine current code env_id = (commFailure e, current)) ∧
    (∀ resp, engine (buildCmd code env_id current) = .ok resp →
      resp.contains "error" = true →
      (execute engine current code env_id).1.ok = false ∧
      (execute engine current code env_id).2 = current) := by
  constructor
  · intro e he
    simp [execute, he]
  · intro resp hr herr
    simp only [execute, hr]
    rw [if_pos herr]
    cases hs : (resp.getField "error").asStr with
    | error e => simp [commFailure]
    | ok m => simp

/-- Witness for C1 at a failing engine and at an error-document response. -/
theorem execute_total_err_on_failure_witness :
    execute (fun _ => Except.error "boom") (some 7) "c" none =
      (commFailure "boom", some 7) ∧
    (execute (fun _ => Except.ok (JVal.obj [("error", JVal.str "bad"), ("env", JVal.num 9)]))
        (some 7) "c" none).1.ok = false ∧
    (execute (fun _ => Except.ok (JVal.obj [("error", JVal.str "bad"), ("env", JVal.num 9)]))
        (some 7) "c" none).2 = some 7 :=
  ⟨(execute_total_err_on_failure (fun _ => Except.error "boom") (some 7) "c" none).1 "boom" rfl,
   ((execute_total_err_on_failure (fun _ => Except.ok (JVal.obj [("error", JVal.str "bad"), ("env", JVal.num 9)]))
      (some 7) "c" none).2 (JVal.obj [("error", JVal.str "bad"), ("env", JVal.num 9)]) rfl (by decide)).1,
   ((execute_total_err_on_failure (fun _ => Except.ok (JVal.obj [("error", JVal.str "bad"), ("env", JVal.num 9)]))
      (some 7) "c" none).2 (JVal.obj [("error", JVal.str "bad"), ("env", JVal.num 9)]) rfl (by decide)).2⟩

/-- C2: the environment id placed in the encoded request is the explicit
override if present, else the session's current environment, else absent;
after a successful non-error response carrying an integer `env` field `e`,
the session environment equals `some e`; and the round-trip with an
echoed-back request carrying `env = 3` leaves the environment at `some 3`. -/
theorem execute_env_selection_and_update
    (code : String) (env_id current : Option Int) :
    ((buildCmd code env_id current).find "env" =
      (match env_id with
       | some e => some (JVal.num e)
       | none =>
         match current with
         | some e => some (JVal.num e)
         | none => none)) ∧
    (∀ engine resp e, engine (buildCmd code env_id current) = .ok resp →
      resp.contains "error" = false →
      resp.find "env" = some (JVal.num e) →
      (execute engine current code env_id).2 = some e) ∧
    ((execute (fun c => Except.ok c) none "x" (some 3)).2 = some 3) := by
  refine ⟨?_, ?_, by decide⟩
  · cases env_id <;> cases current <;>
      simp [buildCmd, JVal.find, lookupField]
  · intro engine resp e hok herr henv
    have hc : resp.contains "env" = true := by simp [JVal.contains, henv]
    have hg : resp.getField "env" = JVal.num e := by simp [JVal.getField, henv]
    simp only [execute, hok]
    rw [if_neg (by simp [herr])]
    rw [if_pos hc]
    simp only [hg, JVal.asInt]
    cases hm : (match resp.find "messages" with
                | some (JVal.arr l) => msgsOutput l
                | _ => Except.ok "") with
    | error em => simp [hm]
    | ok ms =>
      cases hsr : (match resp.find "sorries" with
                   | some (JVal.arr l) => sorriesOutput l
                   | _ => Except.ok "") with
      | error es => simp [hm, hsr]
      | ok ss => simp [hm, hsr]

/-- Witness for C2 at `env = Some(3)` with an echoing engine. -/
theorem execute_env_selection_and_update_witness :
    ((buildCmd "x" (some 3) none).find "env" = some (JVal.num 3)) ∧
    (execute (fun c => Except.ok c) none "x" (some 3)).2 = some 3 :=
  ⟨(execute_env_selection_and_update "x" (some 3) none).1,
   (execute_env_selection_and_update "x" (some 3) none).2.1
     (fun c => Except.ok c) (buildCmd "x" (some 3) none) 3 rfl (by decide) (by rfl)⟩

/-- C3: every well-formed response document without an `error` field yields
`Ok` with the output assembled by concatenating each diagnostic message's
text followed by a newline, then each open sub-goal's text prefixed
"Goal: " and followed by a newline; and the spec scenario
`execute("#eval 1 + 1")` against `{"env":1,"messages":[{"severity":"info",
"data":"2"}]}` yields `Ok` with output "2\n" and environment `some 1`. -/
theorem execute_ok_output_assembly :
    (∀ (engine : JVal → Except String JVal) (current : Option Int) (code : String)
       (env_id : Option Int) (resp : JVal) (e : Int)
       (ms : List (String × String)) (gs : List String),
      engine (buildCmd code env_id current) = .ok resp →
      resp.find "error" = none →
      resp.find "env" = some (JVal.num e) →
      resp.find "messages" = some (JVal.arr (ms.map (fun p => mkMessage p.1 p.2))) →
      resp.find "sorries" = some (JVal.arr (gs.map mkSorryEntry)) →
      execute engine current code env_id =
        ({ ok := true,
           output := concatAll (ms.map (fun p => p.2 ++ "\n")) ++
                     concatAll (gs.map (fun g => "Goal: " ++ g ++ "\n")),
           error := "", response := resp, env := some e }, some e)) ∧
    ((execute (fun _ => Except.ok scenarioResp) none "#eval 1 + 1" none).1.ok = true ∧
     (execute (fun _ => Except.ok scenarioResp) none "#eval 1 + 1" none).1.output = "2\n" ∧
     (execute (fun _ => Except.ok scenarioResp) none "#eval 1 + 1" none).2 = some 1) := by
  refine ⟨?_, by decide, by decide, by decide⟩
  intro engine current code env_id resp e ms gs hok herr henv hmsg hsorr
  have hce : resp.contains "error" = false := by simp [JVal.contains, herr]
  have hc : resp.contains "env" = true := by simp [JVal.contains, henv]
  have hg : resp.getField "env" = JVal.num e := by simp [JVal.getField, henv]
  simp only [execute, hok]
  rw [if_neg (by simp [hce])]
  rw [if_pos hc]
  simp only [hg, JVal.asInt, hmsg, hsorr, msgsOutput_mk, sorriesOutput_mk]

/-- Witness for C3 at a document with one message and one sub-goal. -/
theorem execute_ok_output_assembly_witness :
    execute
        (fun _ => Except.ok (JVal.obj
          [("env", JVal.num 5),
           ("messages", JVal.arr [mkMessage "info" "hi"]),
           ("sorries", JVal.arr [mkSorryEntry "yes"])]))
        (some 2) "c" none =
      ({ ok := true,
         output := concatAll ([("info", "hi")].map (fun p => p.2 ++ "\n")) ++
                   concatAll (["yes"].map (fun g => "Goal: " ++ g ++ "\n")),
         error := "",
         response := JVal.obj
           [("env", JVal.num 5),
            ("messages", JVal.arr [mkMessage "info" "hi"]),
            ("sorries", JVal.arr [mkSorryEntry "yes"])],
         env := some 5 }, some 5) :=
  execute_ok_output_assembly.1
    (fun _ => Except.ok (JVal.obj
      [("env", JVal.num 5),
       ("messages", JVal.arr [mkMessage "info" "hi"]),
       ("sorries", JVal.arr [mkSorryEntry "yes"])]))
    (some 2) "c" none _ 5 [("info", "hi")] ["yes"] rfl rfl rfl rfl rfl

/-- C4: for every text and cursor (clamped to `[0, len]`),
`extract_identifier` returns a span with `start ≤ c ≤ stop ≤ len` whose
characters are all identifier-constituent and whose neighbouring characters,
when they exist, are non-constituent. The function is total and
deterministic by construction and takes no engine argument. -/
theorem extract_identifier_span_spec (code : List Char) (cursor_pos : Int) :
    (extract_identifier code cursor_pos).start ≤ clampCursor code cursor_pos ∧
    clampCursor code cursor_pos ≤ (extract_identifier code cursor_pos).stop ∧
    (extract_identifier code cursor_pos).stop ≤ code.length ∧
    (∀ i, (extract_identifier code cursor_pos).start ≤ i →
      i < (extract_identifier code cursor_pos).stop →
      is_ident_char (code.getD i ' ') = true) ∧
    (0 < (extract_identifier code cursor_pos).start →
      is_ident_char (code.getD ((extract_identifier code cursor_pos).start - 1) ' ') = false) ∧
    ((extract_identifier code cursor_pos).stop < code.length →
      is_ident_char (code.getD ((extract_identifier code cursor_pos).stop) ' ') = false) := by
  have hcl := clampCursor_le_length code cursor_pos
  simp only [extract_identifier]
  refine ⟨scanLeft_le _ _, scanRight_ge _ _, scanRight_le_length _ _ hcl, ?_,
    scanLeft_bound _ _, scanRight_bound _ _⟩
  intro i h1 h2
  by_cases hi : i < clampCursor code cursor_pos
  · exact scanLeft_const code _ i h1 hi
  · exact scanRight_const code _ i (by omega) h2

/-- Witness for C4 on the text "ab" at cursor 1. -/
theorem extract_identifier_span_spec_witness :
    (extract_identifier ("ab".toList) 1).start ≤ clampCursor ("ab".toList) 1 ∧
    is_ident_char (("ab".toList).getD 0 ' ') = true :=
  ⟨(extract_identifier_span_spec ("ab".toList) 1).1,
   (extract_identifier_span_spec ("ab".toList) 1).2.2.2.1 0 (by decide) (by decide)⟩

/-- C5: `is_complete` answers "incomplete" on text that trims to empty, and
whenever after the scan a depth counter is positive or string mode is open;
a merely negative counter does not by itself yield "incomplete"
(`isComplete(")") = "complete"`); and the four concrete examples of the
spec hold. -/
theorem is_complete_depth_and_string_spec :
    (∀ code : List Char, trimTrailing code = [] → is_complete code = "incomplete") ∧
    (∀ code : List Char,
      ((scanAll (trimTrailing code)).open_parens > 0 ∨
       (scanAll (trimTrailing code)).open_braces > 0 ∨
       (scanAll (trimTrailing code)).open_brackets > 0 ∨
       (scanAll (trimTrailing code)).in_string = true) →
      is_complete code = "incomplete") ∧
    is_complete ([] : List Char) = "incomplete" ∧
    is_complete ("example : Nat := 1".toList) = "complete" ∧
    is_complete ("def f (x : Nat".toList) = "incomplete" ∧
    is_complete (quoteChar :: "unterminated".toList) = "incomplete" ∧
    is_complete (")".toList) = "complete" := by
  refine ⟨?_, ?_, by decide, by decide, by decide, by decide, by decide⟩
  · intro code h
    simp [is_complete, h]
  · intro code h
    cases htr : trimTrailing code with
    | nil => simp [is_complete, htr]
    | cons x xs =>
      rw [htr] at h
      simp only [is_complete, htr, List.isEmpty_cons, Bool.false_eq_true, if_false]
      rw [if_pos h]

/-- Witness for C5: the empty-trim case at `[]` and the open-depth case at
a lone opening parenthesis. -/
theorem is_complete_depth_and_string_spec_witness :
    is_complete ([] : List Char) = "incomplete" ∧
    is_complete ("(".toList) = "incomplete" :=
  ⟨is_complete_depth_and_string_spec.1 [] (by decide),
   is_complete_depth_and_string_spec.2.1 ("(".toList) (by decide)⟩

/-- C6 counterexample: the claim says a double quote inside a line comment
has no effect, which would make `isComplete("-- \"")` = "complete" (just as
`isComplete("--")` is). The code's quote check precedes its comment-mode
check, so the quote enters string mode and the result is "incomplete". -/
theorem is_complete_comment_quote_counterexample :
    is_complete ("-- ".toList ++ [quoteChar]) = "incomplete" ∧
    is_complete ("--".toList) = "complete" := by
  constructor
  · decide
  · decide

/-- C6 (amended): once the scanner is in line-comment mode (and not in
string mode), a step changes no depth counter; a newline exits comment mode
and every other character is ignored, except that a double quote enters
string mode (the quote check precedes the comment-mode check). The specific
example `isComplete("-- comment (open")` = "complete" holds. -/
theorem is_complete_comment_mode_spec :
    (∀ (t : List Char) (i : Nat) (st : scan_state),
      st.in_comment = true → st.in_string = false →
      scanStep t i st =
        (if t.getD i ' ' = quoteChar then { st with in_string := true }
         else if t.getD i ' ' = '\n' then { st with in_comment := false }
         else st)) ∧
    is_complete ("-- comment (open".toList) = "complete" := by
  refine ⟨?_, by decide⟩
  intro t i st hcm hstr
  have heta : { open_parens := st.open_parens, open_braces := st.open_braces,
                open_brackets := st.open_brackets, in_string := false,
                in_comment := true } = st := by
    cases st
    simp only at hcm hstr
    rw [hcm, hstr]
  simp only [scanStep, hstr, hcm, Bool.false_eq_true, if_false, eq_self_iff_true, if_true,
    heta]
  by_cases hq : t.getD i ' ' = quoteChar
  · simp only [if_pos hq]
  · simp only [if_neg hq]
    by_cases hd : i + 1 < t.length ∧ t.getD i ' ' = '-' ∧ t.getD (i + 1) ' ' = '-'
    · have hn : ¬(t.getD i ' ' = '\n') := by rw [hd.2.1]; decide
      simp only [if_pos hd, if_neg hn]
    · simp only [if_neg hd]

/-- Witness for C6 (amended) at the state reached inside "-- (" just before
the parenthesis. -/
theorem is_complete_comment_mode_spec_witness :
    (⟨0, 0, 0, false, true⟩ : scan_state).in_comment = true ∧
    scanStep ("-- (".toList) 3 ⟨0, 0, 0, false, true⟩ =
      (if ("-- (".toList).getD 3 ' ' = quoteChar
       then { (⟨0, 0, 0, false, true⟩ : scan_state) with in_string := true }
       else if ("-- (".toList).getD 3 ' ' = '\n'
       then { (⟨0, 0, 0, false, true⟩ : scan_state) with in_comment := false }
       else ⟨0, 0, 0, false, true⟩) :=
  ⟨rfl, is_complete_comment_mode_spec.1 ("-- (".toList) 3 ⟨0, 0, 0, false, true⟩ rfl rfl⟩

/-- C7 counterexample: the claim says text containing "by" only as a
substring of a longer identifier is classified complete, but the code uses a
plain substring search: `isComplete("byte")` is "incomplete". -/
theorem is_complete_by_substring_counterexample :
    is_complete ("byte".toList) = "incomplete" := by decide

/-- C7 (amended): for text passing the depth and string checks, the result is
"incomplete" iff the trimmed text contains the two-character sequence "by"
as a plain substring (token or not) and its last character is neither '.'
nor ')'. -/
theorem is_complete_by_heuristic_spec (code : List Char)
    (h1 : trimTrailing code ≠ [])
    (h2 : ¬((scanAll (trimTrailing code)).open_parens > 0 ∨
            (scanAll (trimTrailing code)).open_braces > 0 ∨
            (scanAll (trimTrailing code)).open_brackets > 0 ∨
            (scanAll (trimTrailing code)).in_string = true)) :
    is_complete code = "incomplete" ↔
      (hasBy (trimTrailing code) = true ∧
       (trimTrailing code).getLastD ' ' ≠ '.' ∧
       (trimTrailing code).getLastD ' ' ≠ ')') := by
  cases htr : trimTrailing code with
  | nil => exact absurd htr h1
  | cons x xs =>
    rw [htr] at h2
    simp only [is_complete, htr, List.isEmpty_cons, Bool.false_eq_true, if_false]
    rw [if_neg h2]
    by_cases hby : hasBy (x :: xs) = true ∧ (x :: xs).getLastD ' ' ≠ '.' ∧
        (x :: xs).getLastD ' ' ≠ ')'
    · rw [if_pos hby]
      exact iff_of_true rfl hby
    · rw [if_neg hby]
      exact iff_of_false (by decide) hby

/-- Witness for C7 (amended) on the text "by". -/
theorem is_complete_by_heuristic_spec_witness :
    is_complete ("by".toList) = "incomplete" ↔
      (hasBy (trimTrailing ("by".toList)) = true ∧
       (trimTrailing ("by".toList)).getLastD ' ' ≠ '.' ∧
       (trimTrailing ("by".toList)).getLastD ' ' ≠ ')') :=
  is_complete_by_heuristic_spec ("by".toList) (by decide) (by decide)

/-- C8: `inspect` returns "" without consulting the engine when the extracted
identifier is empty (the result is the same for every engine); otherwise it
sends `#check <ident>` with the current environment when set, returns the
first diagnostic message's text verbatim on success, the "No information
available" sentinel when the response carries no messages, and "" on any
engine failure. -/
theorem inspect_spec (current : Option Int) (code : List Char) (cursor_pos : Int) :
    ((extract_identifier code cursor_pos).text = "" →
      ∀ engine, inspect engine current code cursor_pos = "") ∧
    (∀ engine e,
      engine (buildCmd ("#check " ++ (extract_identifier code cursor_pos).text) none current) =
        .error e →
      inspect engine current code cursor_pos = "") ∧
    ((extract_identifier code cursor_pos).text ≠ "" →
      (∀ engine resp m rest s,
        engine (buildCmd ("#check " ++ (extract_identifier code cursor_pos).text) none current) =
          .ok resp →
        resp.find "messages" = some (JVal.arr (m :: rest)) →
        m.find "data" = some (JVal.str s) →
        inspect engine current code cursor_pos = s) ∧
      (∀ engine resp,
        engine (buildCmd ("#check " ++ (extract_identifier code cursor_pos).text) none current) =
          .ok resp →
        resp.find "messages" = none →
        inspect engine current code cursor_pos =
          "No information available for: " ++ (extract_identifier code cursor_pos).text)) := by
  refine ⟨?_, ?_, fun hne => ⟨?_, ?_⟩⟩
  · intro hempty engine
    simp [inspect, hempty]
  · intro engine e he
    by_cases hempty : (extract_identifier code cursor_pos).text = ""
    · simp [inspect, hempty]
    · simp only [inspect]
      rw [if_neg hempty, he]
  · intro engine resp m rest s hok hmsg hdata
    simp only [inspect]
    rw [if_neg hne, hok]
    simp only [hmsg, hdata, JVal.asStr]
  · intro engine resp hok hmsg
    simp only [inspect]
    rw [if_neg hne, hok]
    simp only [hmsg]

/-- Witness for C8: an empty identifier between spaces yields "" for any
engine, and a one-message response yields the message text verbatim. -/
theorem inspect_spec_witness :
    inspect (fun _ => Except.error "down") (some 4) ("  ".toList) 1 = "" ∧
    inspect (fun _ => Except.ok (JVal.obj
        [("messages", JVal.arr [JVal.obj [("data", JVal.str "Nat")]])]))
      (some 4) ("ab".toList) 1 = "Nat" :=
  ⟨(inspect_spec (some 4) ("  ".toList) 1).1 (by decide) (fun _ => Except.error "down"),
   ((inspect_spec (some 4) ("ab".toList) 1).2.2 (by decide)).1
     (fun _ => Except.ok (JVal.obj [("messages", JVal.arr [JVal.obj [("data", JVal.str "Nat")]])]))
     (JVal.obj [("messages", JVal.arr [JVal.obj [("data", JVal.str "Nat")]])])
     (JVal.obj [("data", JVal.str "Nat")]) [] "Nat" rfl rfl rfl⟩

/-- C9 counterexample: the claim says every poll performed after shutdown
returns immediately rather than blocking or sleeping, but `xeus_kernel_poll`
never consults the should-stop flag: polled with an empty queue after
shutdown it sleeps the full caller-supplied timeout (here 100 ms, recorded
as the third component) before returning the empty result. -/
theorem poll_after_shutdown_sleeps_counterexample :
    should_stop (interp_step interp_op.shutdown_request interp_init) = true ∧
    (xeus_kernel_poll (interp_step interp_op.shutdown_request interp_init) 100).1 = "" ∧
    (xeus_kernel_poll (interp_step interp_op.shutdown_request interp_init) 100).2.2 = 100 ∧
    (100 : Nat) ≠ 0 := by
  refine ⟨rfl, rfl, rfl, by decide⟩

/-- C9 (amended): the should-stop flag is monotone — shutdown sets it and no
operation ever clears it, so every later query reports true — and a poll on
an empty queue returns the empty no-op result without blocking indefinitely,
but only after sleeping the caller-supplied timeout (the poll does not
consult the should-stop flag). -/
theorem should_stop_monotone_spec :
    (∀ (op : interp_op) (st : lean_interpreter_st),
      should_stop st = true → should_stop (interp_step op st) = true) ∧
    (∀ st : lean_interpreter_st,
      should_stop (interp_step interp_op.shutdown_request st) = true) ∧
    (∀ (st : lean_interpreter_st) (timeout_ms : Nat),
      st.m_message_queue = [] →
      xeus_kernel_poll st timeout_ms = ("", st, timeout_ms)) := by
  refine ⟨?_, ?_, ?_⟩
  · intro op st h
    cases op with
    | execute_request msg cb => simpa [interp_step, should_stop] using h
    | poll_op =>
      cases hq : st.m_message_queue with
      | nil => simpa [interp_step, poll_message, hq, should_stop] using h
      | cons m rest => simpa [interp_step, poll_message, hq, should_stop] using h
    | send_result => simpa [interp_step, should_stop] using h
    | send_error => simpa [interp_step, should_stop] using h
    | shutdown_request => simp [interp_step, should_stop]
  · intro st
    simp [interp_step, should_stop]
  · intro st timeout_ms hq
    simp [xeus_kernel_poll, poll_message, hq]

/-- Witness for C9 (amended): the flag stays set across a subsequent
execute-request, and a poll on the empty shut-down state returns the empty
result with the full 50 ms sleep. -/
theorem should_stop_monotone_spec_witness :
    should_stop (interp_step (interp_op.execute_request "m" 1)
      (interp_step interp_op.shutdown_request interp_init)) = true ∧
    xeus_kernel_poll (interp_step interp_op.shutdown_request interp_init) 50 =
      ("", interp_step interp_op.shutdown_request interp_init, 50) :=
  ⟨should_stop_monotone_spec.1 (interp_op.execute_request "m" 1)
      (interp_step interp_op.shutdown_request interp_init)
      (should_stop_monotone_spec.2.1 interp_init),
   should_stop_monotone_spec.2.2 (interp_step interp_op.shutdown_request interp_init) 50 rfl⟩

/-- C10: when neither the character before nor the character at the clamped
cursor is identifier-constituent, the extracted prefix is empty, every
keyword matches it, and `complete` returns the entire static vocabulary in
its fixed order with both span bounds equal to the clamped cursor. -/
theorem complete_empty_prefix_full_vocabulary (code : List Char) (cursor_pos : Int)
    (h1 : clampCursor code cursor_pos = 0 ∨
      is_ident_char (code.getD (clampCursor code cursor_pos - 1) ' ') = false)
    (h2 : clampCursor code cursor_pos = code.length ∨
      is_ident_char (code.getD (clampCursor code cursor_pos) ' ') = false) :
    complete code cursor_pos =
      { matches_ := keywords,
        cursor_start := clampCursor code cursor_pos,
        cursor_end := clampCursor code cursor_pos } := by
  have hs := scanLeft_stop code (clampCursor code cursor_pos) h1
  have he := scanRight_stop code (clampCursor code cursor_pos) h2
  have htext : (String.mk (((code.drop (clampCursor code cursor_pos))).take
      (clampCursor code cursor_pos - clampCursor code cursor_pos))).toList = [] := by
    simp [Nat.sub_self]
  simp only [complete, extract_identifier, hs, he, htext, strPre, List.filter_true]

/-- Witness for C10 on the text " x" at cursor 0. -/
theorem complete_empty_prefix_full_vocabulary_witness :
    complete (" x".toList) 0 =
      { matches_ := keywords,
        cursor_start := clampCursor (" x".toList) 0,
        cursor_end := clampCursor (" x".toList) 0 } :=
  complete_empty_prefix_full_vocabulary (" x".toList) 0 (Or.inl (by decide))
    (Or.inr (by decide))

end XeusLean
